import Mathlib

/-!
Verification of the car-rental management backend: availability checking
(`rentals/models.py`, `rentals/serializers.py`) and the dashboard aggregation
endpoint (`api/views.py`), shallowly embedded over list-based snapshots of the
relational data.  Timestamps are modelled as natural numbers; Django querysets
over a table become Lean lists, with the default `-start_date` ordering of
`Rental.objects.all()` modelled as a stable descending sort.
-/

namespace CarRental

/-- Rental.STATUS_CHOICES from rentals/models.py. -/
inductive RStatus where
  | active
  | completed
  | cancelled
deriving DecidableEq

/-- Car.STATUS_CHOICES from cars/models.py. -/
inductive CStatus where
  | available
  | rented
  | maintenance
deriving DecidableEq

/-- authentication.models.User (the fields the dashboard logic reads). -/
structure User where
  id : Nat
  username : String
deriving DecidableEq

/-- authentication.models.LoginHistory row. -/
structure Login where
  userId : Nat
  timestamp : Nat
deriving DecidableEq

/-- cars.models.Car row: `id` is the database primary key, `car_id` the
external identifier string. -/
structure Car where
  id : Nat
  make : String
  model : String
  year : Nat
  status : CStatus
  car_id : String
deriving DecidableEq

/-- rentals.models.Rental row; `carId`/`userId` are the foreign-key values. -/
structure Rental where
  id : Nat
  userId : Nat
  carId : Nat
  start_date : Nat
  end_date : Nat
  status : RStatus
deriving DecidableEq

/-- Python truthiness of the optional `exclude_rental_id` argument:
`if exclude_rental_id:` is false both for `None` and for `0`. -/
def truthy : Option Nat → Bool
  | none => false
  | some i => i != 0

/-- Whether rental `r` is dropped by the `.exclude(id=exclude_rental_id)`
call guarded by `if exclude_rental_id:` in `Rental.is_car_available`. -/
def excludedBy (ex : Option Nat) (r : Rental) : Bool :=
  truthy ex && r.id == ex.getD 0

/-- Rental.is_car_available from rentals/models.py: the car is available for
[s, e) iff no active rental of the car (other than the excluded one)
satisfies `start_date < e AND end_date > s`.  `db` is the Rental table. -/
def is_car_available (db : List Rental) (car s e : Nat) (ex : Option Nat) : Bool :=
  let overlapping := db.filter fun r =>
    r.carId == car && r.status == RStatus.active && (r.start_date < e && s < r.end_date)
  let remaining := if truthy ex then overlapping.filter (fun r => !(r.id == ex.getD 0)) else overlapping
  remaining.isEmpty

/-- Input to RentalSerializer.validate: each field may be absent
(partial update). -/
structure RentalData where
  user : Option Nat
  car : Option Nat
  start_date : Option Nat
  end_date : Option Nat
  status : Option RStatus
deriving DecidableEq

/-- Outcomes of RentalSerializer.validate that are not a plain acceptance:
the two ValidationErrors raised by the source, plus the KeyError a create
without a car field would hit at `data['car']` (unreachable behind the
serializer's required-field checks). -/
inductive VErr where
  | dateOrder
  | unavailable
  | keyError
deriving DecidableEq

/-- RentalSerializer.validate from rentals/serializers.py.  `inst` is
`self.instance` (`none` on create, the current row on update); `db` is the
Rental table scanned by `is_car_available`. -/
def validate (db : List Rental) (inst : Option Rental) (data : RentalData) :
    Except VErr RentalData :=
  match data.start_date, data.end_date with
  | some s, some e =>
    if e ≤ s then .error .dateOrder
    else
      match inst with
      | none =>
        match data.car with
        | some c =>
          if is_car_available db c s e none then .ok data else .error .unavailable
        | none => .error .keyError
      | some t =>
        if is_car_available db (data.car.getD t.carId) s e (some t.id) then .ok data
        else .error .unavailable
  | _, _ => .ok data

/-- Fields of a rental create request; `start_date`, `end_date`, `car` and
`user` are required model fields, `status` falls back to the model default
`active` when omitted. -/
structure CreateData where
  userId : Nat
  carId : Nat
  start_date : Nat
  end_date : Nat
  status : Option RStatus
deriving DecidableEq

/-- Fields of a (possibly partial) rental update request. -/
structure UpdateData where
  user : Option Nat
  car : Option Nat
  start_date : Option Nat
  end_date : Option Nat
  status : Option RStatus
deriving DecidableEq

/-- View of a create request as serializer input. -/
def createToData (d : CreateData) : RentalData :=
  ⟨some d.userId, some d.carId, some d.start_date, some d.end_date, d.status⟩

/-- View of an update request as serializer input. -/
def updateToData (d : UpdateData) : RentalData :=
  ⟨d.user, d.car, d.start_date, d.end_date, d.status⟩

/-- Overwrite the provided fields of an existing rental, as DRF does after a
successful partial update. -/
def applyData (d : UpdateData) (r : Rental) : Rental :=
  { id := r.id
    userId := d.user.getD r.userId
    carId := d.car.getD r.carId
    start_date := d.start_date.getD r.start_date
    end_date := d.end_date.getD r.end_date
    status := d.status.getD r.status }

/-- The two write operations gated by RentalSerializer.validate. -/
inductive Op where
  | create (newId : Nat) (d : CreateData)
  | update (targetId : Nat) (d : UpdateData)

/-- One write step of the rental table: run the serializer's validation and,
when it passes, persist the new or updated row; `none` when validation fails
or the update target does not exist. -/
def applyOp (db : List Rental) : Op → Option (List Rental)
  | .create newId d =>
    match validate db none (createToData d) with
    | .ok _ =>
      some (db ++ [⟨newId, d.userId, d.carId, d.start_date, d.end_date, d.status.getD .active⟩])
    | .error _ => none
  | .update tid d =>
    match db.find? (fun r => r.id == tid) with
    | none => none
    | some t =>
      match validate db (some t) (updateToData d) with
      | .ok _ => some (db.map fun r => if r.id == tid then applyData d r else r)
      | .error _ => none

/-- Two rentals occupy intersecting half-open intervals. -/
def rentalsOverlap (a b : Rental) : Bool :=
  a.start_date < b.end_date && b.start_date < a.end_date

/-- A pair of rentals respects the invariant: they are not two active rentals
of the same car with intersecting intervals. -/
def okPair (a b : Rental) : Bool :=
  !(a.status == RStatus.active && b.status == RStatus.active &&
    a.carId == b.carId && rentalsOverlap a b)

/-- No two active rentals of the same car overlap, over a whole table. -/
def noOverlap : List Rental → Bool
  | [] => true
  | r :: rest => rest.all (okPair r) && noOverlap rest

instance {ε α : Type} [DecidableEq ε] [DecidableEq α] : DecidableEq (Except ε α)
  | .ok a, .ok b =>
    if h : a = b then .isTrue (by rw [h]) else .isFalse (by intro hh; cases hh; exact h rfl)
  | .ok _, .error _ => .isFalse (fun h => Except.noConfusion h)
  | .error _, .ok _ => .isFalse (fun h => Except.noConfusion h)
  | .error e, .error f =>
    if h : e = f then .isTrue (by rw [h]) else .isFalse (by intro hh; cases hh; exact h rfl)

/-- Stable insert for descending insertion sort: the new element goes in
front of the first list element whose key does not exceed its own. -/
def insD {α : Type} (key : α → Nat) (x : α) : List α → List α
  | [] => [x]
  | y :: ys => if key y ≤ key x then x :: y :: ys else y :: insD key x ys

/-- Stable descending sort by a numeric key, as Python's
`sort(key=..., reverse=True)` and the `-field` orderings of the Django
querysets in api/views.py produce. -/
def sortD {α : Type} (key : α → Nat) (l : List α) : List α :=
  l.foldr (insD key) []

/-- Merge of two descending lists, preferring the left list on equal keys. -/
def mergeD {α : Type} (key : α → Nat) : List α → List α → List α
  | [], ys => ys
  | xs, [] => xs
  | x :: xs, y :: ys =>
    if key y ≤ key x then x :: mergeD key xs (y :: ys)
    else y :: mergeD key (x :: xs) ys

/-- A list is descending in the given key. -/
def SortedD {α : Type} (key : α → Nat) (l : List α) : Prop :=
  l.Pairwise fun a b => key b ≤ key a

/-- A snapshot of the four tables the dashboard endpoint reads. -/
structure Snapshot where
  users : List User
  cars : List Car
  rentals : List Rental
  logins : List Login
deriving DecidableEq

/-- The `stats` object assembled by api/views.py `dashboard_data`: its eight
fields, with the source's key names. -/
structure Stats where
  cars : Nat
  availableCars : Nat
  rentedCars : Nat
  maintenanceCars : Nat
  rentals : Nat
  activeRentals : Nat
  completedRentals : Nat
  users : Nat
deriving DecidableEq

/-- The counting queries of the stats section of `dashboard_data`. -/
def dashStats (snap : Snapshot) : Stats :=
  { cars := snap.cars.length
    availableCars := (snap.cars.filter fun c => c.status == CStatus.available).length
    rentedCars := (snap.cars.filter fun c => c.status == CStatus.rented).length
    maintenanceCars := (snap.cars.filter fun c => c.status == CStatus.maintenance).length
    rentals := snap.rentals.length
    activeRentals := (snap.rentals.filter fun r => r.status == RStatus.active).length
    completedRentals := (snap.rentals.filter fun r => r.status == RStatus.completed).length
    users := snap.users.length }

/-- The numeric values of the stats object, in emission order. -/
def statsValues (st : Stats) : List Nat :=
  [st.cars, st.availableCars, st.rentedCars, st.maintenanceCars,
   st.rentals, st.activeRentals, st.completedRentals, st.users]

/-- One entry of the merged activity feed; login entries carry `none` in the
rental-only fields, mirroring the two dict shapes built in `dashboard_data`. -/
structure ActivityEntry where
  type : String
  userId : Nat
  username : String
  carId : Option String
  carName : Option String
  status : Option RStatus
  timestamp : Nat
deriving DecidableEq

/-- Build the normalized list of a row list, stopping at the first failed
foreign-key lookup, as the Python list comprehensions would raise there. -/
def mapO {α β : Type} (f : α → Option β) : List α → Option (List β)
  | [] => some []
  | a :: l => do
    let b ← f a
    let bs ← mapO f l
    pure (b :: bs)

/-- Normalize a login event, resolving its user foreign key; `none` models
the lookup failing on a dangling reference. -/
def loginToActivity (users : List User) (lg : Login) : Option ActivityEntry :=
  (users.find? fun u => u.id == lg.userId).map fun u =>
    ⟨"login", u.id, u.username, none, none, none, lg.timestamp⟩

/-- Normalize a rental, resolving its user and car foreign keys. -/
def rentalToActivity (users : List User) (cars : List Car) (r : Rental) :
    Option ActivityEntry := do
  let u ← users.find? fun x => x.id == r.userId
  let c ← cars.find? fun x => x.id == r.carId
  pure ⟨"rental", u.id, u.username, some c.car_id, some (c.make ++ " " ++ c.model),
        some r.status, r.start_date⟩

/-- Activity feed as the code computes it over the full event lists: each
source is pre-truncated to its 10 most recent entries, then the two are
concatenated, stable-sorted descending by timestamp, and truncated to 10. -/
def activityCode (loginData rentalData : List ActivityEntry) : List ActivityEntry :=
  List.take 10 (sortD ActivityEntry.timestamp
    (List.take 10 (sortD ActivityEntry.timestamp loginData) ++
     List.take 10 (sortD ActivityEntry.timestamp rentalData)))

/-- Modelled from the spec: the activity list obtained by sorting the full
combined set of login and rental events descending by timestamp and taking
the top 10 overall, with no per-source pre-truncation. -/
def activitySpec (loginData rentalData : List ActivityEntry) : List ActivityEntry :=
  List.take 10 (sortD ActivityEntry.timestamp (loginData ++ rentalData))

/-- The activity section of `dashboard_data` over a snapshot. -/
def dashActivity (snap : Snapshot) : Option (List ActivityEntry) := do
  let loginData ← mapO (loginToActivity snap.users)
    (List.take 10 (sortD Login.timestamp snap.logins))
  let rentalData ← mapO (rentalToActivity snap.users snap.cars)
    (List.take 10 (sortD Rental.start_date snap.rentals))
  pure (List.take 10 (sortD ActivityEntry.timestamp (loginData ++ rentalData)))

/-- One entry of the `popularCars` ranking, with the source's field names. -/
structure PopularEntry where
  id : Nat
  make : String
  model : String
  year : Nat
  status : CStatus
  rentalCount : Nat
deriving DecidableEq

/-- One step of the `car_rental_count` dict construction: increment the
count of the given car id, or append it with count 1 on first occurrence
(Python dicts preserve insertion order). -/
def bumpCount (counts : List (Nat × Nat)) (cid : Nat) : List (Nat × Nat) :=
  if counts.any fun p => p.1 == cid then
    counts.map fun p => if p.1 == cid then (p.1, p.2 + 1) else p
  else counts ++ [(cid, 1)]

/-- The `car_rental_count` dict as an insertion-ordered association list,
built by iterating the rental table. -/
def carRentalCounts (rentals : List Rental) : List (Nat × Nat) :=
  rentals.foldl (fun acc r => bumpCount acc r.carId) []

/-- Correctness of a partial count table with respect to the rentals already
processed: every listed pair carries the exact rental count of its car, and a
car id is listed iff it has at least one processed rental. -/
def goodCounts (rs : List Rental) (acc : List (Nat × Nat)) : Prop :=
  (∀ p ∈ acc, p.2 = rs.countP fun r => r.carId == p.1) ∧
  (∀ cid, (∃ p ∈ acc, p.1 = cid) ↔ 0 < rs.countP fun r => r.carId == cid)

/-- The ranked and truncated (car id, rental count) pairs of `popularCars`:
the rental table is iterated in its default `-start_date` order, and
`sorted(..., key=lambda x: x[1], reverse=True)` is a stable descending sort
by count. -/
def popularPairs (rentals : List Rental) : List (Nat × Nat) :=
  List.take 5 (sortD Prod.snd (carRentalCounts (sortD Rental.start_date rentals)))

/-- Resolve a ranked pair to its `popularCars` entry via `Car.objects.get`;
`none` models a `DoesNotExist` on a dangling car id. -/
def popularEntry (cars : List Car) (p : Nat × Nat) : Option PopularEntry :=
  (cars.find? fun c => c.id == p.1).map fun c =>
    ⟨c.id, c.make, c.model, c.year, c.status, p.2⟩

/-- The `popularCars` section of `dashboard_data` over a snapshot. -/
def dashPopular (snap : Snapshot) : Option (List PopularEntry) :=
  mapO (popularEntry snap.cars) (popularPairs snap.rentals)

/-- The full three-part response of `dashboard_data`. -/
structure Dashboard where
  stats : Stats
  activity : List ActivityEntry
  popularCars : List PopularEntry
deriving DecidableEq

/-- The whole dashboard computation; `none` models an uncaught foreign-key
lookup failure, which referential integrity rules out. -/
def computeDashboard (snap : Snapshot) : Option Dashboard := do
  let a ← dashActivity snap
  let p ← dashPopular snap
  pure ⟨dashStats snap, a, p⟩

/-- Referential integrity of a snapshot: every foreign key resolves, and
primary keys are positive and duplicate-free where the logic relies on it. -/
def WFSnap (snap : Snapshot) : Prop :=
  (∀ lg ∈ snap.logins, ∃ u ∈ snap.users, u.id = lg.userId) ∧
  (∀ r ∈ snap.rentals, ∃ u ∈ snap.users, u.id = r.userId) ∧
  (∀ r ∈ snap.rentals, ∃ c ∈ snap.cars, c.id = r.carId)

instance (snap : Snapshot) : Decidable (WFSnap snap) := by
  unfold WFSnap; infer_instance

/-- An operation carries both dates: trivially true of a create (whose dates
are required fields), and a condition on the request body of an update. -/
def opProvidesDates : Op → Prop
  | .create _ _ => True
  | .update _ d => d.start_date.isSome = true ∧ d.end_date.isSome = true

/-- A one-row rental table: car 1 actively rented over [0, 10). -/
def oneActiveTable : List Rental := [⟨1, 1, 1, 0, 10, .active⟩]

/-- Car 1 with an active rental [0, 10) and a cancelled rental [5, 15). -/
def twoRentalTable : List Rental := [⟨1, 1, 1, 0, 10, .active⟩, ⟨2, 1, 1, 5, 15, .cancelled⟩]

/-- Car 1 with an active rental [0, 10) and a cancelled rental [0, 10). -/
def sameDatesTable : List Rental := [⟨1, 1, 1, 0, 10, .active⟩, ⟨2, 1, 1, 0, 10, .cancelled⟩]

/-- A snapshot with two active, one completed and three cancelled rentals and
no cars or users. -/
def cancelledSnap : Snapshot :=
  ⟨[], [],
   [⟨1, 1, 1, 0, 1, .active⟩, ⟨2, 1, 1, 2, 3, .active⟩, ⟨3, 1, 1, 4, 5, .completed⟩,
    ⟨4, 1, 1, 6, 7, .cancelled⟩, ⟨5, 1, 1, 8, 9, .cancelled⟩, ⟨6, 1, 1, 10, 11, .cancelled⟩],
   []⟩

/-- The scenario of api/tests.py: one admin, two cars, three rentals, plus a
login event. -/
def demoSnap : Snapshot :=
  ⟨[⟨1, "admin"⟩],
   [⟨1, "Toyota", "Camry", 2022, .available, "CAR001"⟩,
    ⟨2, "Honda", "Accord", 2023, .rented, "CAR002"⟩],
   [⟨1, 1, 2, 95, 105, .active⟩, ⟨2, 1, 1, 85, 90, .completed⟩, ⟨3, 1, 1, 80, 82, .completed⟩],
   [⟨1, 50⟩]⟩

/-- Eleven normalized login entries with increasing timestamps. -/
def elevenLogins : List ActivityEntry :=
  (List.range 11).map fun i => ⟨"login", 1, "admin", none, none, none, i⟩

theorem is_car_available_iff (db : List Rental) (car s e : Nat) (ex : Option Nat) :
    is_car_available db car s e ex = true ↔
    ∀ r ∈ db, r.carId = car → r.status = RStatus.active → excludedBy ex r = false →
      ¬(r.start_date < e ∧ s < r.end_date) := by
  unfold is_car_available excludedBy
  cases hex : truthy ex with
  | false =>
    simp only [Bool.false_and, Bool.false_eq_true, if_false, List.isEmpty_iff,
      List.filter_eq_nil_iff]
    constructor
    · intro h r hr hcar hst _ hov
      exact h r hr (by simp [hcar, hst, hov.1, hov.2])
    · intro h r hr hcond
      simp only [Bool.and_eq_true, beq_iff_eq, decide_eq_true_eq] at hcond
      exact h r hr hcond.1.1 hcond.1.2 trivial ⟨hcond.2.1, hcond.2.2⟩
  | true =>
    simp only [Bool.true_and, if_true, List.isEmpty_iff, List.filter_eq_nil_iff,
      List.mem_filter, and_imp]
    constructor
    · intro h r hr hcar hst hne hov
      exact h r hr (by simp [hcar, hst, hov.1, hov.2]) (by simpa using hne)
    · intro h r hr hcond hne
      simp only [Bool.and_eq_true, beq_iff_eq, decide_eq_true_eq] at hcond
      simp only [Bool.not_eq_true'] at hne
      exact h r hr hcond.1.1 hcond.1.2 hne ⟨hcond.2.1, hcond.2.2⟩

theorem excludedBy_eq_false_iff (ex : Option Nat) (r : Rental) (h0 : r.id ≠ 0) :
    excludedBy ex r = false ↔ ex ≠ some r.id := by
  cases ex with
  | none => simp [excludedBy, truthy]
  | some i =>
    by_cases hi : i = 0
    · subst hi
      simp only [excludedBy, truthy, Option.getD_some]
      constructor
      · intro _ hc
        exact h0 (by injection hc with hc; exact hc.symm)
      · intro _; simp
    · simp only [excludedBy, truthy, Option.getD_some, ne_eq, Option.some.injEq]
      constructor
      · intro h hc
        subst hc
        simp [hi] at h
      · intro h
        have : (r.id == i) = false := by
          simp only [beq_eq_false_iff_ne, ne_eq]
          intro hc; exact h hc.symm
        simp [this]

theorem noOverlap_iff_pairwise (l : List Rental) :
    noOverlap l = true ↔ l.Pairwise fun a b => okPair a b = true := by
  induction l with
  | nil => simp [noOverlap]
  | cons r rest ih =>
    simp [noOverlap, List.all_eq_true, ih, List.pairwise_cons, and_comm]

theorem okPair_iff (a b : Rental) : okPair a b = true ↔
    (a.status = RStatus.active → b.status = RStatus.active → a.carId = b.carId →
      ¬(a.start_date < b.end_date ∧ b.start_date < a.end_date)) := by
  simp only [okPair, rentalsOverlap, Bool.not_eq_true', Bool.and_eq_false_iff,
    beq_eq_false_iff_ne, ne_eq, decide_eq_false_iff_not, Bool.and_eq_true, beq_iff_eq,
    decide_eq_true_eq]
  tauto

theorem okPair_of_swap (a b : Rental) (h : okPair a b = true) : okPair b a = true := by
  rw [okPair_iff] at h ⊢
  intro hb ha hc hov
  exact h ha hb hc.symm ⟨hov.2, hov.1⟩

theorem excludedBy_of_ne (i : Nat) (r : Rental) (h : r.id ≠ i) :
    excludedBy (some i) r = false := by
  have : (r.id == i) = false := by simpa [beq_eq_false_iff_ne] using h
  simp [excludedBy, this]

/-- C2: `is_car_available` returns true iff no active rental of the car,
other than the excluded one, satisfies `start_date < endTime` and
`end_date > startTime`; and with zero active rentals of the car it always
returns true.  Stated for tables whose rentals carry nonzero primary keys,
as Django-assigned keys are. -/
theorem C2_is_car_available_iff (db : List Rental) (car s e : Nat) (ex : Option Nat)
    (hid : ∀ r ∈ db, r.id ≠ 0) (_hse : s < e) :
    (is_car_available db car s e ex = true ↔
      ¬ ∃ r ∈ db, r.carId = car ∧ r.status = RStatus.active ∧ ex ≠ some r.id ∧
        r.start_date < e ∧ s < r.end_date) ∧
    ((∀ r ∈ db, r.carId = car → r.status ≠ RStatus.active) →
      is_car_available db car s e ex = true) := by
  constructor
  · rw [is_car_available_iff]
    constructor
    · rintro h ⟨r, hr, hcar, hst, hne, h1, h2⟩
      exact h r hr hcar hst ((excludedBy_eq_false_iff ex r (hid r hr)).mpr hne) ⟨h1, h2⟩
    · intro h r hr hcar hst hexc hov
      exact h ⟨r, hr, hcar, hst, (excludedBy_eq_false_iff ex r (hid r hr)).mp hexc,
        hov.1, hov.2⟩
  · intro hnone
    rw [is_car_available_iff]
    intro r hr hcar hst _ _
    exact absurd hst (hnone r hr hcar)

/-- Witness for C2: a request for car 2 against a table whose only rental is
for car 1 is available. -/
theorem C2_witness : is_car_available oneActiveTable 2 5 8 none = true :=
  (C2_is_car_available_iff oneActiveTable 2 5 8 none (by decide) (by decide)).2 (by decide)

/-- C7: exactly-touching intervals do not overlap: with an active rental of
the car ending at `end_date` and no other active rental of the car
conflicting with the request, the interval starting exactly at `end_date` is
available. -/
theorem C7_touching_intervals (db : List Rental) (r : Rental) (e2 : Nat)
    (hmem : r ∈ db) (hact : r.status = RStatus.active) (hlt : r.end_date < e2)
    (hno : ∀ q ∈ db, q ≠ r → q.carId = r.carId → q.status = RStatus.active →
      ¬(q.start_date < e2 ∧ r.end_date < q.end_date)) :
    is_car_available db r.carId r.end_date e2 none = true := by
  rw [is_car_available_iff]
  intro q hq hcar hst _ hov
  by_cases hqr : q = r
  · subst hqr
    exact absurd hov.2 (lt_irrefl _)
  · exact hno q hq hqr hcar hst hov

/-- Witness for C7: active rental [0, 10) on car 1, request [10, 20). -/
theorem C7_witness : is_car_available oneActiveTable 1 10 20 none = true :=
  C7_touching_intervals oneActiveTable ⟨1, 1, 1, 0, 10, .active⟩ 20 (by decide) rfl
    (by decide) (by decide)

/-- Counterexample for C3: the stats object carries no cancelled-rental
count: on a snapshot with three cancelled rentals, none of the emitted stats
values equals that count. -/
theorem C3_counterexample :
    (cancelledSnap.rentals.countP fun r => r.status == RStatus.cancelled) ∉
      statsValues (dashStats cancelledSnap) := by decide

/-- C3 (amended): the stats object contains the total car count, a car count
for each car status, the total rental count, rental counts for the active and
completed statuses (but none for cancelled), and the total user count. -/
theorem C3_stats_fields (snap : Snapshot) :
    statsValues (dashStats snap) =
      [snap.cars.length,
       snap.cars.countP (fun c => c.status == CStatus.available),
       snap.cars.countP (fun c => c.status == CStatus.rented),
       snap.cars.countP (fun c => c.status == CStatus.maintenance),
       snap.rentals.length,
       snap.rentals.countP (fun r => r.status == RStatus.active),
       snap.rentals.countP (fun r => r.status == RStatus.completed),
       snap.users.length] := by
  simp [statsValues, dashStats, List.countP_eq_length_filter]

/-- Counterexample for C6: a cancelled rental whose dates coincide with an
active rental of the same car re-validates as unavailable even with its own
id excluded, so the property does not hold of every existing rental. -/
theorem C6_counterexample :
    (⟨2, 1, 1, 0, 10, RStatus.cancelled⟩ : Rental) ∈ sameDatesTable ∧
    is_car_available sameDatesTable 1 0 10 (some 2) = false := by decide

/-- C6 (amended): in a table with distinct nonzero rental ids satisfying the
no-overlap invariant, every existing active rental re-validates as available
against its own car and dates when its id is excluded, and the serializer
accepts the corresponding no-op update. -/
theorem C6_revalidate_self (db : List Rental) (r : Rental) (hmem : r ∈ db)
    (hact : r.status = RStatus.active)
    (_hids : (db.map Rental.id).Nodup) (hid0 : ∀ q ∈ db, q.id ≠ 0)
    (hinv : noOverlap db = true) :
    is_car_available db r.carId r.start_date r.end_date (some r.id) = true ∧
    (r.start_date < r.end_date →
      validate db (some r) ⟨none, none, some r.start_date, some r.end_date, none⟩ =
        Except.ok ⟨none, none, some r.start_date, some r.end_date, none⟩) := by
  have hpw : db.Pairwise fun a b => okPair a b = true :=
    (noOverlap_iff_pairwise db).mp hinv
  have havail : is_car_available db r.carId r.start_date r.end_date (some r.id) = true := by
    rw [is_car_available_iff]
    intro q hq hcar hst hexc hov
    have hqr : q ≠ r := by
      intro hqr
      subst hqr
      rw [(excludedBy_eq_false_iff (some q.id) q (hid0 q hq))] at hexc
      exact hexc rfl
    have hok : okPair q r = true :=
      hpw.forall (fun a b h => okPair_of_swap a b h) hq hmem hqr
    exact (okPair_iff q r).mp hok hst hact hcar hov
  refine ⟨havail, fun hlt => ?_⟩
  simp only [validate, Option.getD_none]
  rw [if_neg (by omega)]
  simp [havail]

/-- Counterexample for C10: with both dates present but out of order and the
availability check failing, validate raises the date-order error, not the
availability one, so the stated iff fails. -/
theorem C10_counterexample :
    is_car_available oneActiveTable 1 5 3 none = false ∧
    validate oneActiveTable none ⟨some 1, some 1, some 5, some 3, none⟩ =
      Except.error VErr.dateOrder := by decide

/-- C10 (amended): validate raises the availability error iff both dates are
present, in order, and the availability check on the effective car and
excluded id fails; whenever either date is absent the input is accepted
unchanged, both checks being skipped. -/
theorem C10_validate_iff (db : List Rental) (inst : Option Rental) (data : RentalData) :
    (validate db inst data = Except.error VErr.unavailable ↔
      ∃ s e, data.start_date = some s ∧ data.end_date = some e ∧ s < e ∧
        ((inst = none ∧ ∃ c, data.car = some c ∧ is_car_available db c s e none = false) ∨
         (∃ t, inst = some t ∧
            is_car_available db (data.car.getD t.carId) s e (some t.id) = false))) ∧
    ((data.start_date = none ∨ data.end_date = none) → validate db inst data = Except.ok data) := by
  constructor
  · cases hs : data.start_date with
    | none =>
      simp [validate, hs]
    | some s =>
      cases he : data.end_date with
      | none => simp [validate, hs, he]
      | some e =>
        by_cases hord : e ≤ s
        · simp only [validate, hs, he, if_pos hord]
          constructor
          · intro h; cases h
          · rintro ⟨s2, e2, hs2, he2, hlt, _⟩
            cases hs2; cases he2; omega
        · cases inst with
          | none =>
            cases hc : data.car with
            | none =>
              simp only [validate, hs, he, hc, if_neg hord]
              constructor
              · intro h; cases h
              · rintro ⟨s2, e2, hs2, he2, _, hcase⟩
                rcases hcase with ⟨_, c, hcc, _⟩ | ⟨t, ht, _⟩
                · cases hcc
                · cases ht
            | some c =>
              simp only [validate, hs, he, hc, if_neg hord]
              by_cases hav : is_car_available db c s e none = true
              · rw [if_pos hav]
                constructor
                · intro h; cases h
                · rintro ⟨s2, e2, hs2, he2, _, hcase⟩
                  cases hs2; cases he2
                  rcases hcase with ⟨_, c2, hcc, hfail⟩ | ⟨t, ht, _⟩
                  · cases hcc; rw [hav] at hfail; cases hfail
                  · cases ht
              · rw [if_neg hav]
                simp only [Bool.not_eq_true] at hav
                constructor
                · intro _
                  exact ⟨s, e, rfl, rfl, by omega, Or.inl ⟨by trivial, c, by trivial, hav⟩⟩
                · intro _; rfl
          | some t =>
            simp only [validate, hs, he, if_neg hord]
            by_cases hav : is_car_available db (data.car.getD t.carId) s e (some t.id) = true
            · rw [if_pos hav]
              constructor
              · intro h; cases h
              · rintro ⟨s2, e2, hs2, he2, _, hcase⟩
                cases hs2; cases he2
                rcases hcase with ⟨hnone, _⟩ | ⟨t2, ht2, hfail⟩
                · cases hnone
                · cases ht2; rw [hav] at hfail; cases hfail
            · rw [if_neg hav]
              simp only [Bool.not_eq_true] at hav
              constructor
              · intro _
                exact ⟨s, e, rfl, rfl, by omega, Or.inr ⟨t, by trivial, hav⟩⟩
              · intro _; rfl
  · intro h
    rcases h with h | h <;> simp [validate, h]

/-- Witness for C10: a status-only partial update is accepted unchanged. -/
theorem C10_witness :
    validate oneActiveTable (some ⟨2, 1, 1, 5, 15, .cancelled⟩)
      ⟨none, none, none, none, some RStatus.active⟩ =
      Except.ok ⟨none, none, none, none, some RStatus.active⟩ :=
  (C10_validate_iff oneActiveTable (some ⟨2, 1, 1, 5, 15, .cancelled⟩)
    ⟨none, none, none, none, some RStatus.active⟩).2 (Or.inl rfl)

/-- Counterexample for C1: a status-only partial update passes validation
with both checks skipped and revives a cancelled rental into an overlap,
so not every validated step preserves the invariant. -/
theorem C1_counterexample :
    noOverlap twoRentalTable = true ∧
    applyOp twoRentalTable (Op.update 2 ⟨none, none, none, none, some RStatus.active⟩) =
      some [⟨1, 1, 1, 0, 10, RStatus.active⟩, ⟨2, 1, 1, 5, 15, RStatus.active⟩] ∧
    noOverlap [⟨1, 1, 1, 0, 10, RStatus.active⟩, ⟨2, 1, 1, 5, 15, RStatus.active⟩] = false := by
  decide

/-- C1 (amended): over tables with duplicate-free rental ids, every create
that passes the serializer validation, and every update that provides both
dates and passes it, preserves the no-overlap invariant; a dateless partial
update is exempted, as the counterexample shows it must be. -/
theorem C1_invariant_preserved (db db2 : List Rental) (op : Op)
    (hids : (db.map Rental.id).Nodup)
    (hinv : noOverlap db = true)
    (happly : applyOp db op = some db2)
    (hdates : opProvidesDates op) :
    noOverlap db2 = true := by
  rw [noOverlap_iff_pairwise] at hinv
  cases op with
  | create newId d =>
    cases heq : validate db none (createToData d) with
    | error err => simp [applyOp, heq] at happly
    | ok val =>
      simp only [applyOp, heq, Option.some.injEq] at happly
      subst happly
      have havail : is_car_available db d.carId d.start_date d.end_date none = true := by
        simp only [validate, createToData] at heq
        split at heq
        · cases heq
        · split at heq
          · assumption
          · cases heq
      rw [noOverlap_iff_pairwise, List.pairwise_append]
      refine ⟨hinv, by simp, ?_⟩
      intro a ha b hb
      simp only [List.mem_singleton] at hb
      subst hb
      rw [okPair_iff]
      intro hact _ hcar hov
      exact (is_car_available_iff db d.carId d.start_date d.end_date none).mp havail
        a ha hcar hact rfl hov
  | update tid d =>
    obtain ⟨hs1, he1⟩ := hdates
    obtain ⟨s, hs⟩ := Option.isSome_iff_exists.mp hs1
    obtain ⟨e, he⟩ := Option.isSome_iff_exists.mp he1
    cases hfind : db.find? (fun r => r.id == tid) with
    | none => simp [applyOp, hfind] at happly
    | some t =>
      have ht : t ∈ db := List.mem_of_find?_eq_some hfind
      have htid : t.id = tid := by simpa using List.find?_some hfind
      cases heq : validate db (some t) (updateToData d) with
      | error err => simp [applyOp, hfind, heq] at happly
      | ok val =>
        simp only [applyOp, hfind, heq, Option.some.injEq] at happly
        subst happly
        have havail :
            is_car_available db (d.car.getD t.carId) s e (some t.id) = true := by
          simp only [validate, updateToData, hs, he] at heq
          split at heq
          · cases heq
          · split at heq
            · assumption
            · cases heq
        have hinj := List.inj_on_of_nodup_map hids
        have hne : db.Pairwise fun a b => a.id ≠ b.id := by
          rw [List.Nodup, List.pairwise_map] at hids
          exact hids
        rw [noOverlap_iff_pairwise, List.pairwise_map]
        refine List.Pairwise.imp_of_mem ?_ (hinv.and hne)
        intro a b ha hb hab
        obtain ⟨hok, hneq⟩ := hab
        by_cases hatid : a.id = tid
        · have haet : a = t := hinj ha ht (by rw [hatid, htid])
          have hbtid : b.id ≠ tid := fun hbt => hneq (by rw [hatid, hbt])
          rw [if_pos (by simp [hatid]), if_neg (by simp [hbtid])]
          subst haet
          rw [okPair_iff]
          intro _ h2 hcar hov
          have hbcar : b.carId = d.car.getD a.carId := by
            simpa [applyData] using hcar.symm
          have hexc : excludedBy (some a.id) b = false :=
            excludedBy_of_ne a.id b (by rw [htid]; exact hbtid)
          have hov2 : b.start_date < e ∧ s < b.end_date := by
            simp only [applyData, hs, he, Option.getD_some] at hov
            exact ⟨hov.2, hov.1⟩
          exact (is_car_available_iff db (d.car.getD a.carId) s e (some a.id)).mp havail
            b hb hbcar h2 hexc hov2
        · by_cases hbtid : b.id = tid
          · have hbet : b = t := hinj hb ht (by rw [hbtid, htid])
            rw [if_neg (by simp [hatid]), if_pos (by simp [hbtid])]
            subst hbet
            rw [okPair_iff]
            intro h1 _ hcar hov
            have hacar : a.carId = d.car.getD b.carId := by
              simpa [applyData] using hcar
            have hexc : excludedBy (some b.id) a = false :=
              excludedBy_of_ne b.id a (by rw [htid]; exact hatid)
            have hov2 : a.start_date < e ∧ s < a.end_date := by
              simp only [applyData, hs, he, Option.getD_some] at hov
              exact ⟨hov.1, hov.2⟩
            exact (is_car_available_iff db (d.car.getD b.carId) s e (some b.id)).mp havail
              a ha hacar h1 hexc hov2
          · rw [if_neg (by simp [hatid]), if_neg (by simp [hbtid])]
            exact hok

/-- Witness for C1: creating a rental in an empty table passes validation
and yields a table satisfying the invariant. -/
theorem C1_witness : noOverlap [⟨1, 1, 1, 0, 5, RStatus.active⟩] = true :=
  C1_invariant_preserved [] [⟨1, 1, 1, 0, 5, RStatus.active⟩] (Op.create 1 ⟨1, 1, 0, 5, none⟩)
    (by decide) (by decide) (by decide) trivial

theorem insD_mergeD {α : Type} (key : α → Nat) (a : α) :
    ∀ X Y : List α, insD key a (mergeD key X Y) = mergeD key (insD key a X) Y := by
  intro X
  induction X with
  | nil =>
    intro Y
    induction Y with
    | nil => simp [mergeD, insD]
    | cons y ys ihY =>
      simp only [mergeD, insD] at ihY
      by_cases h : key y ≤ key a <;> simp [mergeD, insD, h, ihY]
  | cons x xs ihX =>
    intro Y
    induction Y with
    | nil =>
      by_cases h : key x ≤ key a <;> simp [mergeD, insD, h]
    | cons y ys ihY =>
      by_cases hxa : key x ≤ key a <;> by_cases hyx : key y ≤ key x
      · have hya : key y ≤ key a := le_trans hyx hxa
        simp [mergeD, insD, hxa, hyx, hya]
      · simp only [insD, if_pos hxa] at ihY
        by_cases hya : key y ≤ key a <;> simp [mergeD, insD, hxa, hyx, hya, ihY]
      · simp [mergeD, insD, hxa, hyx, ihX (y :: ys)]
      · have hya : ¬ key y ≤ key a := by omega
        simp only [insD, if_neg hxa] at ihY
        simp [mergeD, insD, hxa, hyx, hya, ihY]

theorem sortD_append {α : Type} (key : α → Nat) (X Y : List α) :
    sortD key (X ++ Y) = mergeD key (sortD key X) (sortD key Y) := by
  induction X with
  | nil => simp [sortD, mergeD]
  | cons x xs ih =>
    show insD key x (sortD key (xs ++ Y)) = mergeD key (insD key x (sortD key xs)) (sortD key Y)
    rw [ih, insD_mergeD]

theorem mem_insD {α : Type} (key : α → Nat) (x : α) (l : List α) (y : α) :
    y ∈ insD key x l ↔ y = x ∨ y ∈ l := by
  induction l with
  | nil => simp [insD]
  | cons z zs ih =>
    by_cases h : key z ≤ key x
    · simp [insD, h, ih]
    · simp [insD, h, ih]
      tauto

theorem sortedD_insD {α : Type} (key : α → Nat) (x : α) (l : List α)
    (h : SortedD key l) : SortedD key (insD key x l) := by
  induction l with
  | nil => simp [insD, SortedD]
  | cons z zs ih =>
    rw [SortedD, List.pairwise_cons] at h
    by_cases hzx : key z ≤ key x
    · rw [show insD key x (z :: zs) = x :: z :: zs from by simp [insD, hzx]]
      rw [SortedD, List.pairwise_cons]
      constructor
      · intro b hb
        rcases List.mem_cons.mp hb with rfl | hb
        · exact hzx
        · exact le_trans (h.1 b hb) hzx
      · rw [List.pairwise_cons]
        exact h
    · rw [show insD key x (z :: zs) = z :: insD key x zs from by simp [insD, hzx]]
      rw [SortedD, List.pairwise_cons]
      constructor
      · intro b hb
        rcases (mem_insD key x zs b).mp hb with rfl | hb
        · omega
        · exact h.1 b hb
      · exact ih h.2

theorem sortD_sortedD {α : Type} (key : α → Nat) (l : List α) :
    SortedD key (sortD key l) := by
  induction l with
  | nil => simp [sortD, SortedD]
  | cons x xs ih => exact sortedD_insD key x (sortD key xs) ih

theorem sortedD_take {α : Type} (key : α → Nat) (n : Nat) (l : List α)
    (h : SortedD key l) : SortedD key (l.take n) :=
  List.Pairwise.sublist (List.take_sublist n l) h

theorem sortD_eq_of_sorted {α : Type} (key : α → Nat) (l : List α)
    (h : SortedD key l) : sortD key l = l := by
  induction l with
  | nil => rfl
  | cons z zs ih =>
    rw [SortedD, List.pairwise_cons] at h
    show insD key z (sortD key zs) = z :: zs
    rw [ih h.2]
    cases zs with
    | nil => rfl
    | cons u us => simp [insD, h.1 u (by simp)]

theorem take_mergeD {α : Type} (key : α → Nat) :
    ∀ (n a b : Nat) (X Y : List α), n ≤ a → n ≤ b →
      List.take n (mergeD key (List.take a X) (List.take b Y)) =
        List.take n (mergeD key X Y) := by
  intro n
  induction n with
  | zero => simp
  | succ m ih =>
    intro a b X Y ha hb
    cases X with
    | nil => simp [mergeD, List.take_take, Nat.min_eq_left hb]
    | cons x xs =>
      cases Y with
      | nil =>
        have h1 : List.take b ([] : List α) = [] := by simp
        rw [h1]
        have h2 : ∀ Z : List α, mergeD key Z [] = Z := by
          intro Z; cases Z <;> simp [mergeD]
        rw [h2, h2, List.take_take, Nat.min_eq_left ha]
      | cons y ys =>
        obtain ⟨a2, rfl⟩ : ∃ a2, a = a2 + 1 := ⟨a - 1, by omega⟩
        obtain ⟨b2, rfl⟩ : ∃ b2, b = b2 + 1 := ⟨b - 1, by omega⟩
        simp only [List.take_succ_cons]
        by_cases h : key y ≤ key x
        · simp only [mergeD, if_pos h, List.take_succ_cons]
          rw [show (y :: List.take b2 ys) = List.take (b2 + 1) (y :: ys) from rfl]
          rw [ih a2 (b2 + 1) xs (y :: ys) (by omega) (by omega)]
        · simp only [mergeD, if_neg h, List.take_succ_cons]
          rw [show (x :: List.take a2 xs) = List.take (a2 + 1) (x :: xs) from rfl]
          rw [ih (a2 + 1) b2 (x :: xs) ys (by omega) (by omega)]

theorem insD_length {α : Type} (key : α → Nat) (x : α) (l : List α) :
    (insD key x l).length = l.length + 1 := by
  induction l with
  | nil => simp [insD]
  | cons z zs ih => by_cases h : key z ≤ key x <;> simp [insD, h, ih]

theorem sortD_length {α : Type} (key : α → Nat) (l : List α) :
    (sortD key l).length = l.length := by
  induction l with
  | nil => rfl
  | cons x xs ih =>
    show (insD key x (sortD key xs)).length = xs.length + 1
    rw [insD_length, ih]

theorem insD_perm {α : Type} (key : α → Nat) (x : α) (l : List α) :
    (insD key x l).Perm (x :: l) := by
  induction l with
  | nil => exact List.Perm.refl _
  | cons z zs ih =>
    by_cases h : key z ≤ key x
    · rw [show insD key x (z :: zs) = x :: z :: zs from by simp [insD, h]]
    · rw [show insD key x (z :: zs) = z :: insD key x zs from by simp [insD, h]]
      exact (ih.cons z).trans (List.Perm.swap x z zs)

theorem sortD_perm {α : Type} (key : α → Nat) (l : List α) :
    (sortD key l).Perm l := by
  induction l with
  | nil => exact List.Perm.refl _
  | cons x xs ih =>
    show (insD key x (sortD key xs)).Perm (x :: xs)
    exact (insD_perm key x (sortD key xs)).trans (ih.cons x)

/-- C4: pre-truncating each activity source to its 10 most recent entries
loses no element of the overall top 10: the code-shaped merge equals the
sort of the full combined set truncated to 10; and with more than 10
combined events the result has exactly 10 entries, sorted descending by
timestamp. -/
theorem C4_activity_refinement (A B : List ActivityEntry) :
    activityCode A B = activitySpec A B ∧
    (10 < A.length + B.length → (activityCode A B).length = 10) ∧
    SortedD ActivityEntry.timestamp (activityCode A B) := by
  refine ⟨?_, ?_, ?_⟩
  · unfold activityCode activitySpec
    rw [sortD_append]
    rw [sortD_eq_of_sorted _ _ (sortedD_take _ 10 _ (sortD_sortedD _ A))]
    rw [sortD_eq_of_sorted _ _ (sortedD_take _ 10 _ (sortD_sortedD _ B))]
    rw [take_mergeD _ 10 10 10 _ _ le_rfl le_rfl]
    rw [← sortD_append]
  · intro hlen
    unfold activityCode
    simp only [List.length_take, sortD_length, List.length_append]
    omega
  · unfold activityCode
    exact sortedD_take _ 10 _ (sortD_sortedD _ _)

/-- Witness for C4: eleven login events and no rentals exceed ten combined
events, and the merged feed has exactly ten entries. -/
theorem C4_witness :
    10 < elevenLogins.length + ([] : List ActivityEntry).length ∧
    (activityCode elevenLogins []).length = 10 :=
  ⟨by decide, (C4_activity_refinement elevenLogins []).2.1 (by decide)⟩

theorem bumpCount_good (pre : List Rental) (r : Rental) (acc : List (Nat × Nat))
    (h : goodCounts pre acc) : goodCounts (pre ++ [r]) (bumpCount acc r.carId) := by
  obtain ⟨h1, h2⟩ := h
  have hcount : ∀ cid, ((pre ++ [r]).countP fun q => q.carId == cid) =
      (pre.countP fun q => q.carId == cid) + (if r.carId = cid then 1 else 0) := by
    intro cid
    rw [List.countP_append]
    simp [List.countP_cons]
  unfold bumpCount
  by_cases hany : acc.any (fun p => p.1 == r.carId) = true
  · rw [if_pos hany]
    constructor
    · intro p hp
      obtain ⟨q, hq, hqp⟩ := List.mem_map.mp hp
      by_cases hqc : q.1 = r.carId
      · rw [if_pos (by simp [hqc])] at hqp
        subst hqp
        rw [hcount, ← h1 q hq, if_pos hqc.symm]
      · rw [if_neg (by simp [hqc])] at hqp
        subst hqp
        rw [hcount, ← h1 q hq, if_neg (fun hc => hqc hc.symm), Nat.add_zero]
    · intro cid
      have hkeys : (∃ p ∈ acc.map (fun p => if p.1 == r.carId then (p.1, p.2 + 1) else p),
          p.1 = cid) ↔ ∃ p ∈ acc, p.1 = cid := by
        constructor
        · rintro ⟨p, hp, hpc⟩
          obtain ⟨q, hq, hqp⟩ := List.mem_map.mp hp
          by_cases hqr : (q.1 == r.carId) = true
          · rw [if_pos hqr] at hqp
            rw [← hqp] at hpc
            exact ⟨q, hq, hpc⟩
          · rw [if_neg hqr] at hqp
            rw [← hqp] at hpc
            exact ⟨q, hq, hpc⟩
        · rintro ⟨q, hq, hqc⟩
          by_cases hqr : (q.1 == r.carId) = true
          · exact ⟨(q.1, q.2 + 1), List.mem_map.mpr ⟨q, hq, by rw [if_pos hqr]⟩, hqc⟩
          · exact ⟨q, List.mem_map.mpr ⟨q, hq, by rw [if_neg hqr]⟩, hqc⟩
      rw [hkeys, h2 cid, hcount]
      by_cases hc : r.carId = cid
      · subst hc
        obtain ⟨p, hp, hpc⟩ := List.any_eq_true.mp hany
        have hpc2 : p.1 = r.carId := by simpa using hpc
        have hpos : 0 < pre.countP fun q => q.carId == r.carId :=
          (h2 r.carId).mp ⟨p, hp, hpc2⟩
        rw [if_pos rfl]
        constructor <;> intro _ <;> omega
      · rw [if_neg hc, Nat.add_zero]
  · rw [if_neg hany]
    have hnone : ∀ p ∈ acc, p.1 ≠ r.carId := by
      intro p hp hc
      exact hany (List.any_eq_true.mpr ⟨p, hp, by simp [hc]⟩)
    have hzero : (pre.countP fun q => q.carId == r.carId) = 0 := by
      by_contra hz
      obtain ⟨p, hp, hpc⟩ := (h2 r.carId).mpr (Nat.pos_of_ne_zero hz)
      exact hnone p hp hpc
    constructor
    · intro p hp
      rcases List.mem_append.mp hp with hp | hp
      · rw [hcount, ← h1 p hp, if_neg (fun hc => hnone p hp hc.symm), Nat.add_zero]
      · simp only [List.mem_singleton] at hp
        subst hp
        rw [hcount, hzero]
        simp
    · intro cid
      rw [hcount]
      constructor
      · rintro ⟨p, hp, hpc⟩
        rcases List.mem_append.mp hp with hp | hp
        · have := (h2 cid).mp ⟨p, hp, hpc⟩
          omega
        · simp only [List.mem_singleton] at hp
          subst hp
          simp only at hpc
          rw [if_pos hpc]
          omega
      · intro hpos
        by_cases hc : r.carId = cid
        · exact ⟨(r.carId, 1), by simp, hc⟩
        · rw [if_neg hc, Nat.add_zero] at hpos
          obtain ⟨p, hp, hpc⟩ := (h2 cid).mpr hpos
          exact ⟨p, List.mem_append_left _ hp, hpc⟩

theorem foldl_bumpCount_good (rs : List Rental) :
    ∀ (pre : List Rental) (acc : List (Nat × Nat)), goodCounts pre acc →
      goodCounts (pre ++ rs) (rs.foldl (fun a r => bumpCount a r.carId) acc) := by
  induction rs with
  | nil => intro pre acc h; simpa using h
  | cons r rs2 ih =>
    intro pre acc h
    rw [List.append_cons]
    exact ih (pre ++ [r]) (bumpCount acc r.carId) (bumpCount_good pre r acc h)

theorem carRentalCounts_good (rs : List Rental) : goodCounts rs (carRentalCounts rs) := by
  have h0 : goodCounts [] [] := by
    constructor
    · intro p hp; cases hp
    · intro cid; simp
  have := foldl_bumpCount_good rs [] [] h0
  simpa [carRentalCounts] using this


theorem mapO_forall2 {α β : Type} (f : α → Option β) :
    ∀ (l : List α) (res : List β), mapO f l = some res →
      List.Forall₂ (fun a b => f a = some b) l res := by
  intro l
  induction l with
  | nil =>
    intro res h
    injection h with h
    subst h
    exact List.Forall₂.nil
  | cons a l2 ih =>
    intro res h
    unfold mapO at h
    cases hfa : f a with
    | none => rw [hfa] at h; cases h
    | some b =>
      rw [hfa] at h
      cases hml : mapO f l2 with
      | none => rw [hml] at h; cases h
      | some bs =>
        rw [hml] at h
        injection h with h
        subst h
        exact List.Forall₂.cons hfa (ih bs hml)

theorem mapO_isSome {α β : Type} (f : α → Option β) :
    ∀ l : List α, (∀ a ∈ l, (f a).isSome = true) → (mapO f l).isSome = true := by
  intro l
  induction l with
  | nil => intro _; rfl
  | cons a l2 ih =>
    intro h
    obtain ⟨b, hb⟩ := Option.isSome_iff_exists.mp (h a (by simp))
    obtain ⟨bs, hbs⟩ := Option.isSome_iff_exists.mp (ih fun x hx => h x (by simp [hx]))
    unfold mapO
    rw [hb, hbs]
    rfl

theorem forall2_mem_right {α β : Type} {F : α → β → Prop} {l : List α} {res : List β}
    (h : List.Forall₂ F l res) : ∀ b ∈ res, ∃ a ∈ l, F a b := by
  induction h with
  | nil => intro b hb; cases hb
  | cons hF htail ih =>
    intro b hb
    rcases List.mem_cons.mp hb with rfl | hb
    · exact ⟨_, by simp, hF⟩
    · obtain ⟨a, ha, hFa⟩ := ih b hb
      exact ⟨a, by simp [ha], hFa⟩

theorem forall2_mem_left {α β : Type} {F : α → β → Prop} {l : List α} {res : List β}
    (h : List.Forall₂ F l res) : ∀ a ∈ l, ∃ b ∈ res, F a b := by
  induction h with
  | nil => intro a ha; cases ha
  | cons hF htail ih =>
    intro a ha
    rcases List.mem_cons.mp ha with rfl | ha
    · exact ⟨_, by simp, hF⟩
    · obtain ⟨b, hb, hFb⟩ := ih a ha
      exact ⟨b, by simp [hb], hFb⟩

theorem forall2_pairwise {α β : Type} {F : α → β → Prop} {P : α → α → Prop}
    {Q : β → β → Prop}
    (hcompat : ∀ a b a2 b2, F a b → F a2 b2 → P a a2 → Q b b2)
    {l : List α} {res : List β}
    (h : List.Forall₂ F l res) : l.Pairwise P → res.Pairwise Q := by
  induction h with
  | nil => intro _; exact List.Pairwise.nil
  | cons hF htail ih =>
    intro hp
    rw [List.pairwise_cons] at hp ⊢
    constructor
    · intro b2 hb2
      obtain ⟨a2, ha2, hF2⟩ := forall2_mem_right htail b2 hb2
      exact hcompat _ _ _ _ hF hF2 (hp.1 a2 ha2)
    · exact ih hp.2

theorem popularEntry_some (cars : List Car) (p : Nat × Nat) (b : PopularEntry)
    (h : popularEntry cars p = some b) :
    b.id = p.1 ∧ b.rentalCount = p.2 ∧
      ∃ c ∈ cars, c.id = p.1 ∧ b.make = c.make ∧ b.model = c.model ∧
        b.year = c.year ∧ b.status = c.status := by
  unfold popularEntry at h
  cases hf : cars.find? (fun c => c.id == p.1) with
  | none => rw [hf] at h; cases h
  | some c =>
    rw [hf] at h
    have hc : c.id = p.1 := by simpa using List.find?_some hf
    have hcm : c ∈ cars := List.mem_of_find?_eq_some hf
    injection h with h
    subst h
    exact ⟨hc, rfl, c, hcm, hc, rfl, rfl, rfl, rfl⟩

theorem bumpCount_nodup (acc : List (Nat × Nat)) (cid : Nat)
    (h : (acc.map Prod.fst).Nodup) : ((bumpCount acc cid).map Prod.fst).Nodup := by
  unfold bumpCount
  by_cases hany : acc.any (fun p => p.1 == cid) = true
  · rw [if_pos hany]
    have hmap : (acc.map (fun p => if p.1 == cid then (p.1, p.2 + 1) else p)).map Prod.fst
        = acc.map Prod.fst := by
      rw [List.map_map]
      apply List.map_congr_left
      intro p _
      by_cases hp : p.1 = cid <;> simp [hp]
    rw [hmap]
    exact h
  · rw [if_neg hany]
    have hnot : cid ∉ acc.map Prod.fst := by
      intro hmem
      obtain ⟨p, hp, hpc⟩ := List.mem_map.mp hmem
      exact hany (List.any_eq_true.mpr ⟨p, hp, by simp [hpc]⟩)
    rw [List.map_append]
    simp [List.nodup_append, h, hnot]

theorem foldl_bumpCount_nodup (rs : List Rental) :
    ∀ acc : List (Nat × Nat), (acc.map Prod.fst).Nodup →
      ((rs.foldl (fun a r => bumpCount a r.carId) acc).map Prod.fst).Nodup := by
  induction rs with
  | nil => intro acc h; simpa using h
  | cons r rs2 ih => intro acc h; exact ih _ (bumpCount_nodup acc r.carId h)

theorem carRentalCounts_nodup (rs : List Rental) :
    ((carRentalCounts rs).map Prod.fst).Nodup := by
  unfold carRentalCounts
  exact foldl_bumpCount_nodup rs [] (by simp)

theorem forall2_map_eq {α β γ : Type} {F : α → β → Prop} {f : α → γ} {g : β → γ}
    (hfg : ∀ a b, F a b → g b = f a) {l : List α} {res : List β}
    (h : List.Forall₂ F l res) : res.map g = l.map f := by
  induction h with
  | nil => rfl
  | cons hF htail ih => simp only [List.map_cons, ih, hfg _ _ hF]

/-- C5: each popularCars entry carries a positive rental count equal to its
car total across all statuses and the fields of an existing car, and each
car appears at most once; the list is sorted descending by count, has at
most 5 entries, omits every zero-rental car, omits no rented car unless the
5-entry cut applies, and is top-5 maximal: every omitted rented car counts
no more rentals than any returned entry. -/
theorem C5_popular_cars (snap : Snapshot) (res : List PopularEntry)
    (hres : dashPopular snap = some res) :
    res.length ≤ 5 ∧
    SortedD PopularEntry.rentalCount res ∧
    (∀ p ∈ res, 0 < p.rentalCount ∧
      p.rentalCount = (snap.rentals.countP fun r => r.carId == p.id) ∧
      ∃ c ∈ snap.cars, c.id = p.id ∧ p.make = c.make ∧ p.model = c.model ∧
        p.year = c.year ∧ p.status = c.status) ∧
    (∀ c ∈ snap.cars, (snap.rentals.countP fun r => r.carId == c.id) = 0 →
      ∀ p ∈ res, p.id ≠ c.id) ∧
    (res.length < 5 → ∀ c ∈ snap.cars,
      0 < (snap.rentals.countP fun r => r.carId == c.id) →
      ∃ p ∈ res, p.id = c.id) ∧
    (res.map PopularEntry.id).Nodup ∧
    (∀ c ∈ snap.cars, 0 < (snap.rentals.countP fun r => r.carId == c.id) →
      (∀ p ∈ res, p.id ≠ c.id) →
      ∀ p ∈ res, (snap.rentals.countP fun r => r.carId == c.id) ≤ p.rentalCount) := by
  unfold dashPopular at hres
  have hF := mapO_forall2 _ _ _ hres
  have hperm : (sortD Rental.start_date snap.rentals).Perm snap.rentals := sortD_perm _ _
  obtain ⟨hg1, hg2⟩ := carRentalCounts_good (sortD Rental.start_date snap.rentals)
  have hcntP : ∀ cid, ((sortD Rental.start_date snap.rentals).countP
      fun r => r.carId == cid) = snap.rentals.countP fun r => r.carId == cid :=
    fun cid => hperm.countP_eq _
  have hpairsmem : ∀ p ∈ popularPairs snap.rentals,
      p ∈ carRentalCounts (sortD Rental.start_date snap.rentals) := by
    intro p hp
    unfold popularPairs at hp
    exact ((sortD_perm Prod.snd _).mem_iff).mp (List.mem_of_mem_take hp)
  have hlen : res.length = (popularPairs snap.rentals).length := hF.length_eq.symm
  have hentry : ∀ p ∈ res, 0 < p.rentalCount ∧
      p.rentalCount = (snap.rentals.countP fun r => r.carId == p.id) ∧
      ∃ c ∈ snap.cars, c.id = p.id ∧ p.make = c.make ∧ p.model = c.model ∧
        p.year = c.year ∧ p.status = c.status := by
    intro p hp
    obtain ⟨q, hq, hFq⟩ := forall2_mem_right hF p hp
    obtain ⟨hid, hcnt, c, hcm, hcid, hmk, hmd, hyr, hst⟩ := popularEntry_some _ _ _ hFq
    have hqmem := hpairsmem q hq
    have hqc := hg1 q hqmem
    have hqpos : 0 < (sortD Rental.start_date snap.rentals).countP
        fun r => r.carId == q.1 := (hg2 q.1).mp ⟨q, hqmem, rfl⟩
    refine ⟨by omega, ?_, c, hcm, hcid.trans hid.symm, hmk, hmd, hyr, hst⟩
    rw [hcnt, hqc, hid, hcntP]
  refine ⟨?_, ?_, hentry, ?_, ?_, ?_, ?_⟩
  · rw [hlen]
    unfold popularPairs
    simp [List.length_take]
  · have hsp : SortedD Prod.snd (popularPairs snap.rentals) := by
      unfold popularPairs
      exact sortedD_take _ 5 _ (sortD_sortedD _ _)
    refine forall2_pairwise ?_ hF hsp
    intro a b a2 b2 hF1 hF2 hle
    obtain ⟨_, hb1, _⟩ := popularEntry_some _ _ _ hF1
    obtain ⟨_, hb2, _⟩ := popularEntry_some _ _ _ hF2
    show b2.rentalCount ≤ b.rentalCount
    omega
  · intro c hc hzero p hp hpc
    obtain ⟨hpos, hcnt, _⟩ := hentry p hp
    rw [hcnt, hpc] at hpos
    omega
  · intro hlt c hc hpos
    rw [hlen] at hlt
    have hall : popularPairs snap.rentals =
        sortD Prod.snd (carRentalCounts (sortD Rental.start_date snap.rentals)) := by
      unfold popularPairs
      apply List.take_of_length_le
      unfold popularPairs at hlt
      simp only [List.length_take] at hlt
      omega
    have hpos2 : 0 < (sortD Rental.start_date snap.rentals).countP
        fun r => r.carId == c.id := by
      rw [hcntP]
      exact hpos
    obtain ⟨q, hq, hqc⟩ := (hg2 c.id).mpr hpos2
    have hqp : q ∈ popularPairs snap.rentals := by
      rw [hall]
      exact ((sortD_perm Prod.snd _).mem_iff).mpr hq
    obtain ⟨b, hb, hFb⟩ := forall2_mem_left hF q hqp
    obtain ⟨hid, _, _⟩ := popularEntry_some _ _ _ hFb
    exact ⟨b, hb, by rw [hid, hqc]⟩
  · have hresids : res.map PopularEntry.id = (popularPairs snap.rentals).map Prod.fst :=
      @forall2_map_eq (Nat × Nat) PopularEntry Nat
        (fun q b => popularEntry snap.cars q = some b) Prod.fst PopularEntry.id
        (fun q b hFb => (popularEntry_some snap.cars q b hFb).1)
        (popularPairs snap.rentals) res hF
    rw [hresids]
    unfold popularPairs
    rw [List.map_take]
    apply List.Nodup.sublist (List.take_sublist _ _)
    exact ((sortD_perm Prod.snd _).map Prod.fst).nodup_iff.mpr (carRentalCounts_nodup _)
  · intro c hc hpos homit p hp
    have hpos2 : 0 < (sortD Rental.start_date snap.rentals).countP
        fun r => r.carId == c.id := by
      rw [hcntP]
      exact hpos
    obtain ⟨q, hq, hqc⟩ := (hg2 c.id).mpr hpos2
    have hqcount : q.2 = snap.rentals.countP fun r => r.carId == c.id := by
      rw [hg1 q hq, hqc, hcntP]
    have hqsort : q ∈ sortD Prod.snd (carRentalCounts (sortD Rental.start_date snap.rentals)) :=
      ((sortD_perm Prod.snd _).mem_iff).mpr hq
    have hsplit : q ∈ List.take 5 (sortD Prod.snd
          (carRentalCounts (sortD Rental.start_date snap.rentals))) ++
        List.drop 5 (sortD Prod.snd
          (carRentalCounts (sortD Rental.start_date snap.rentals))) := by
      rw [List.take_append_drop]
      exact hqsort
    rcases List.mem_append.mp hsplit with hqtake | hqdrop
    · have hqp : q ∈ popularPairs snap.rentals := by
        unfold popularPairs
        exact hqtake
      obtain ⟨b, hb, hFb⟩ := forall2_mem_left hF q hqp
      exact absurd ((popularEntry_some _ _ _ hFb).1.trans hqc) (homit b hb)
    · obtain ⟨p2, hp2, hFp2⟩ := forall2_mem_right hF p hp
      have hp2take : p2 ∈ List.take 5 (sortD Prod.snd
          (carRentalCounts (sortD Rental.start_date snap.rentals))) := by
        unfold popularPairs at hp2
        exact hp2
      have h2 : List.Pairwise (fun a b : Nat × Nat => b.2 ≤ a.2)
          (sortD Prod.snd (carRentalCounts (sortD Rental.start_date snap.rentals))) :=
        sortD_sortedD Prod.snd _
      rw [← List.take_append_drop 5 (sortD Prod.snd
        (carRentalCounts (sortD Rental.start_date snap.rentals)))] at h2
      have hcross := (List.pairwise_append.mp h2).2.2
      have hle : q.2 ≤ p2.2 := hcross p2 hp2take q hqdrop
      obtain ⟨_, hbcnt, _⟩ := popularEntry_some _ _ _ hFp2
      rw [← hqcount, hbcnt]
      exact hle

/-- Witness for C5 on the api/tests.py scenario: Toyota (2 rentals) ranks
before Honda (1 rental), sorted descending with at most 5 entries. -/
theorem C5_witness :
    ∃ res, dashPopular demoSnap = some res ∧ res.length ≤ 5 ∧
      SortedD PopularEntry.rentalCount res := by
  refine ⟨[⟨1, "Toyota", "Camry", 2022, .available, 2⟩,
           ⟨2, "Honda", "Accord", 2023, .rented, 1⟩], ?_, ?_⟩
  · decide
  · have h := C5_popular_cars demoSnap
      [⟨1, "Toyota", "Camry", 2022, .available, 2⟩,
       ⟨2, "Honda", "Accord", 2023, .rented, 1⟩] (by decide)
    exact ⟨h.1, h.2.1⟩

/-- C9: the availability checker always returns a boolean; the dashboard
computation returns a result on every well-formed snapshot; and on the empty
snapshot it returns all-zero stats with empty activity and popularCars
lists. -/
theorem C9_no_domain_errors :
    (∀ snap : Snapshot, WFSnap snap → (computeDashboard snap).isSome = true) ∧
    computeDashboard ⟨[], [], [], []⟩ = some ⟨⟨0, 0, 0, 0, 0, 0, 0, 0⟩, [], []⟩ ∧
    (∀ (db : List Rental) (car s e : Nat) (ex : Option Nat),
      is_car_available db car s e ex = true ∨ is_car_available db car s e ex = false) := by
  refine ⟨?_, by decide, ?_⟩
  · intro snap hwf
    obtain ⟨hlog, hru, hrc⟩ := hwf
    have h1 : (mapO (loginToActivity snap.users)
        (List.take 10 (sortD Login.timestamp snap.logins))).isSome = true := by
      apply mapO_isSome
      intro lg hlg
      have hmem : lg ∈ snap.logins :=
        (sortD_perm Login.timestamp snap.logins).mem_iff.mp (List.mem_of_mem_take hlg)
      obtain ⟨u, hu, hid⟩ := hlog lg hmem
      have hfind : (snap.users.find? fun x => x.id == lg.userId).isSome = true :=
        List.find?_isSome.mpr ⟨u, hu, by simp [hid]⟩
      obtain ⟨u2, hu2⟩ := Option.isSome_iff_exists.mp hfind
      unfold loginToActivity
      rw [hu2]
      rfl
    have h2 : (mapO (rentalToActivity snap.users snap.cars)
        (List.take 10 (sortD Rental.start_date snap.rentals))).isSome = true := by
      apply mapO_isSome
      intro r hr
      have hmem : r ∈ snap.rentals :=
        (sortD_perm Rental.start_date snap.rentals).mem_iff.mp (List.mem_of_mem_take hr)
      obtain ⟨u, hu, huid⟩ := hru r hmem
      obtain ⟨c, hc, hcid⟩ := hrc r hmem
      have hufind : (snap.users.find? fun x => x.id == r.userId).isSome = true :=
        List.find?_isSome.mpr ⟨u, hu, by simp [huid]⟩
      have hcfind : (snap.cars.find? fun x => x.id == r.carId).isSome = true :=
        List.find?_isSome.mpr ⟨c, hc, by simp [hcid]⟩
      obtain ⟨u2, hu2⟩ := Option.isSome_iff_exists.mp hufind
      obtain ⟨c2, hc2⟩ := Option.isSome_iff_exists.mp hcfind
      unfold rentalToActivity
      rw [hu2, hc2]
      rfl
    have hpop : (dashPopular snap).isSome = true := by
      unfold dashPopular
      apply mapO_isSome
      intro p hp
      have hpc : p ∈ carRentalCounts (sortD Rental.start_date snap.rentals) := by
        unfold popularPairs at hp
        exact ((sortD_perm Prod.snd _).mem_iff).mp (List.mem_of_mem_take hp)
      obtain ⟨hg1, hg2⟩ := carRentalCounts_good (sortD Rental.start_date snap.rentals)
      have hpos := (hg2 p.1).mp ⟨p, hpc, rfl⟩
      obtain ⟨r, hrmem, hrp⟩ := List.countP_pos_iff.mp hpos
      have hrmem2 : r ∈ snap.rentals := (sortD_perm _ _).mem_iff.mp hrmem
      obtain ⟨c, hc, hcid⟩ := hrc r hrmem2
      have hrp2 : r.carId = p.1 := by simpa using hrp
      have hcfind : (snap.cars.find? fun x => x.id == p.1).isSome = true :=
        List.find?_isSome.mpr ⟨c, hc, by simp [hcid, hrp2]⟩
      obtain ⟨c2, hc2⟩ := Option.isSome_iff_exists.mp hcfind
      unfold popularEntry
      rw [hc2]
      rfl
    obtain ⟨ld, hld⟩ := Option.isSome_iff_exists.mp h1
    obtain ⟨rd, hrd⟩ := Option.isSome_iff_exists.mp h2
    obtain ⟨pp, hpp⟩ := Option.isSome_iff_exists.mp hpop
    have hact : dashActivity snap =
        some (List.take 10 (sortD ActivityEntry.timestamp (ld ++ rd))) := by
      unfold dashActivity
      rw [hld, hrd]
      rfl
    unfold computeDashboard
    rw [hact, hpp]
    rfl
  · intro db car s e ex
    cases h : is_car_available db car s e ex
    · right; rfl
    · left; rfl

/-- Witness for C9: the api/tests.py snapshot is well-formed and its
dashboard computation returns a result. -/
theorem C9_witness : (computeDashboard demoSnap).isSome = true :=
  C9_no_domain_errors.1 demoSnap (by decide)

/-- C8: the dashboard computation is a pure function of the snapshot: equal
snapshots yield identical activity and popularCars lists, tie order
included, and an identical overall result. -/
theorem C8_deterministic (s t : Snapshot) (h : s = t) :
    dashActivity s = dashActivity t ∧ dashPopular s = dashPopular t ∧
    computeDashboard s = computeDashboard t := by
  subst h
  exact ⟨rfl, rfl, rfl⟩

/-- Witness for C8 at the api/tests.py snapshot. -/
theorem C8_witness : computeDashboard demoSnap = computeDashboard demoSnap :=
  (C8_deterministic demoSnap demoSnap rfl).2.2

/-- Witness for C6 (amended): the sole active rental of a one-row table
re-validates as available against its own dates. -/
theorem C6_witness : is_car_available oneActiveTable 1 0 10 (some 1) = true :=
  (C6_revalidate_self oneActiveTable ⟨1, 1, 1, 0, 10, .active⟩ (by decide) rfl
    (by decide) (by decide) (by decide)).1

end CarRental
